import Mathlib

/-!
Verification of the double-buffered field simulation of the smoke/flame
particle effect repository.

The repository holds three React components built on three.js, each running a
GPU ping-pong simulation:

- FlameCanvas.jsx (src/src/components/FlameCanvas.jsx), a 256x256 single
  channel heat field: 5-point diffusion (mix factor 0.6), cooling
  (multiply by 0.995 then subtract 0.001), aspect-corrected smoothstep
  brush of radius 0.06 and strength 0.7, and a clamp at zero.
- an unnamed flame variant (src/unnamed/part_000), identical structure with
  mix factor 0.8, cooling 0.985 / 0.002, brush radius 0.04, strength 0.5.
- SmokeCanvas.jsx (src/src/components/SmokeCanvas.jsx), a 512x512 four
  channel field: per-cell decay by the factor 0.97 only (no neighbour
  reads, no absolute decay, no clamp), plus an exponential-falloff
  injection scaled by the pointer velocity magnitude.

Fragment shaders are embedded as per-cell functions over exact arithmetic:
grid values are real numbers, uniform inputs (mouse position, aspect,
time) are rationals cast into the reals where the shader computes with
them.  A buffer is a function from integer texel coordinates; sampling at
an offset clamps the coordinate to the texture edge, which models the
CLAMP_TO_EDGE addressing of the render targets at pixel-centre samples.
-/

/-- Texel-centre texture coordinate of column (or row) i of an n-texel
texture, as the shader sees it through vUv. -/
def texel (n : ℕ) (i : ℤ) : ℚ := (i + 1/2) / n

/-- Edge clamping of a texel coordinate: sampling outside the texture reads
the nearest edge texel (CLAMP_TO_EDGE, the default wrap of the render
targets). -/
def clampCoord (n : ℕ) (i : ℤ) : ℤ := max 0 (min ((n : ℤ) - 1) i)

/-- The texel coordinates that actually exist in an n-by-n texture. -/
def InDom (n : ℕ) (i j : ℤ) : Prop :=
  0 ≤ i ∧ i < (n : ℤ) ∧ 0 ≤ j ∧ j < (n : ℤ)

instance (n : ℕ) (i j : ℤ) : Decidable (InDom n i j) := by
  unfold InDom
  infer_instance

/-- GLSL mix(x, y, a) = x * (1 - a) + y * a. -/
noncomputable def glslMix (x y a : ℝ) : ℝ := x * (1 - a) + y * a

/-- GLSL smoothstep(e0, e1, x): clamp the normalised position to the unit
interval and apply the cubic Hermite polynomial. -/
noncomputable def smoothstepR (e0 e1 x : ℝ) : ℝ :=
  let t := min (max ((x - e0) / (e1 - e0)) 0) 1
  t * t * (3 - 2 * t)

/-- The numeric constants that distinguish the two flame presets: diffusion
mix factor, proportional cooling factor, absolute cooling drop, brush
radius and injected heat strength. -/
structure FlamePreset where
  mixFactor : ℚ
  coolMul : ℚ
  coolSub : ℚ
  radius : ℚ
  strength : ℚ

/-- Constants of src/src/components/FlameCanvas.jsx: mix(center, avg, 0.6),
diff *= 0.995, diff -= 0.001, radius 0.06, heat * 0.7. -/
def flamePresetSlow : FlamePreset :=
  { mixFactor := 6/10, coolMul := 995/1000, coolSub := 1/1000,
    radius := 6/100, strength := 7/10 }

/-- Constants of src/unnamed/part_000: mix(center, avg, 0.8), diff *= 0.985,
diff -= 0.002, radius 0.04, heat * 0.5. -/
def flamePresetFast : FlamePreset :=
  { mixFactor := 8/10, coolMul := 985/1000, coolSub := 2/1000,
    radius := 4/100, strength := 5/10 }

/-- Squared length of the aspect-corrected cell-to-pointer difference of the
flame simulation shader: d = uv - mouse.xy; d.x *= aspect; this is
dot(d, d). -/
def flameLenSq (a mx my ux uy : ℚ) : ℚ :=
  (a * (ux - mx))^2 + (uy - my)^2

/-- The value len = length(d) of the flame simulation shader. -/
noncomputable def flameLen (a mx my ux uy : ℚ) : ℝ :=
  Real.sqrt ((flameLenSq a mx my ux uy : ℚ) : ℝ)

/-- Heat injected at a cell by the flame simulation shader: inside the brush
radius, smoothstep falloff times the preset strength; outside, nothing.
Mirrors the conditional add of the mouse-injection block. -/
noncomputable def flameForcing (P : FlamePreset) (a mx my ux uy : ℚ) : ℝ :=
  if flameLen a mx my ux uy < (P.radius : ℝ) then
    smoothstepR (P.radius : ℝ) 0 (flameLen a mx my ux uy) * (P.strength : ℝ)
  else 0

/-- One cell of the flame simulation shader main(): diffusion toward the
average of the four neighbours plus the centre, proportional and absolute
cooling, mouse injection, and the final max(diff, 0.0) clamp.  The mz
argument is the third component of the mouse uniform (set to 0 by
animate and never read by the shader). -/
noncomputable def flameCellStep (P : FlamePreset) (a mx my mz ux uy : ℚ)
    (c top bottom left right : ℝ) : ℝ :=
  max ((glslMix c ((top + bottom + left + right + c) / 5) (P.mixFactor : ℝ))
        * (P.coolMul : ℝ) - (P.coolSub : ℝ)
        + flameForcing P a mx my ux uy) 0

/-- The whole-buffer flame update: the simulation pass run over every texel
of the 256x256 back target, reading the previous front target with
edge-clamped neighbour samples. -/
noncomputable def flameGridStep (P : FlamePreset) (a mx my mz : ℚ)
    (g : ℤ → ℤ → ℝ) : ℤ → ℤ → ℝ :=
  fun i j =>
    flameCellStep P a mx my mz (texel 256 i) (texel 256 j)
      (g (clampCoord 256 i) (clampCoord 256 j))
      (g (clampCoord 256 i) (clampCoord 256 (j + 1)))
      (g (clampCoord 256 i) (clampCoord 256 (j - 1)))
      (g (clampCoord 256 (i - 1)) (clampCoord 256 j))
      (g (clampCoord 256 (i + 1)) (clampCoord 256 j))

/-- Iterated flame updates with the pointer and aspect held fixed (the flame
simulation shader has no time uniform, so frames differ only through the
buffer contents). -/
noncomputable def flameRun (P : FlamePreset) (a mx my mz : ℚ) :
    ℕ → (ℤ → ℤ → ℝ) → (ℤ → ℤ → ℝ)
  | 0, g => g
  | n + 1, g => flameRun P a mx my mz n (flameGridStep P a mx my mz g)

/-- A buffer holding the value v in a single cell and zero everywhere else. -/
noncomputable def flameSingle (i0 j0 : ℤ) (v : ℚ) : ℤ → ℤ → ℝ :=
  fun i j => if i = i0 ∧ j = j0 then (v : ℝ) else 0

/-- The two flame render targets as the animate closure holds them: targetA
is the front buffer (read by the simulation pass and by the display pass),
targetB the back buffer the simulation pass renders into. -/
structure FlameBuffers where
  targetA : ℤ → ℤ → ℝ
  targetB : ℤ → ℤ → ℝ

/-- The simulation pass of one animate tick: render the update of targetA
into targetB, leaving targetA untouched. -/
noncomputable def flameSimPass (P : FlamePreset) (a mx my mz : ℚ)
    (s : FlameBuffers) : FlameBuffers :=
  { targetA := s.targetA, targetB := flameGridStep P a mx my mz s.targetA }

/-- The swap that follows: const temp = targetA; targetA = targetB;
targetB = temp.  Only the two handles are exchanged. -/
def flameSwapBuffers (s : FlameBuffers) : FlameBuffers :=
  { targetA := s.targetB, targetB := s.targetA }

/-- One animate tick of the flame orchestrator up to the display pass:
simulation into the back target, then the buffer swap. -/
noncomputable def flameTick (P : FlamePreset) (a mx my mz : ℚ)
    (s : FlameBuffers) : FlameBuffers :=
  flameSwapBuffers (flameSimPass P a mx my mz s)

/-- The texture the display pass reads after the swap:
displayMat.uniforms.tex.value = targetA.texture. -/
def flameDisplaySource (s : FlameBuffers) : ℤ → ℤ → ℝ := s.targetA

/-- Registration state of the flame component against the host: the queued
requestAnimationFrame callback, the three event listeners, and whether the
render targets have been disposed. -/
structure FlameHost where
  rafQueued : Bool
  resizeRegistered : Bool
  moveRegistered : Bool
  touchRegistered : Bool
  buffersDisposed : Bool

/-- The useEffect cleanup of FlameCanvas.jsx, line by line: it removes the
resize and mousemove listeners, detaches the canvas, disposes the renderer
and both render targets.  It never calls cancelAnimationFrame (and never
removes the touchmove listener), so those fields are untouched. -/
def flameCleanup (h : FlameHost) : FlameHost :=
  { h with resizeRegistered := false, moveRegistered := false,
           buffersDisposed := true }

/-- The onResize handler of FlameCanvas.jsx: it overwrites the aspect
uniform with w / h unconditionally; the previous aspect value never enters
the computation. -/
def flameOnResize (prevAspect w h : ℚ) : ℚ := w / h

/-- The onMove handler: normalised pointer position from raw client
coordinates, measured from the top-left of the window. -/
def flameOnMove (w h cx cy : ℚ) : ℚ × ℚ := (cx / w, cy / h)

/-- The mouse uniform as animate sets it each tick:
set(mouse.current.x, 1.0 - mouse.current.y, 0). -/
def flameMouseUniform (p : ℚ × ℚ) : ℚ × ℚ × ℚ := (p.1, 1 - p.2, 0)

/-- One rgba texel of the smoke simulation. -/
structure Vec4R where
  r : ℝ
  g : ℝ
  b : ℝ
  a : ℝ

/-- Componentwise non-negativity of a smoke texel. -/
def Vec4Nonneg (c : Vec4R) : Prop :=
  0 ≤ c.r ∧ 0 ≤ c.g ∧ 0 ≤ c.b ∧ 0 ≤ c.a

/-- Distance from a cell to the pointer in the smoke simulation shader:
dist = length(vUv - uMouse.xy).  No aspect correction is applied. -/
noncomputable def smokeDist (ux uy mx my : ℚ) : ℝ :=
  Real.sqrt (((ux : ℝ) - (mx : ℝ))^2 + ((uy : ℝ) - (my : ℝ))^2)

/-- One cell of the smoke simulation shader main(): color *= 0.97, then
color.rgb += smoke * force * length(uMouse.zw) * 3.0 with
force = exp(-dist * 40.0) and the three noise components built from
sin of time and the cell-to-pointer difference. -/
noncomputable def smokeCellStep (c : Vec4R) (ux uy mx my dx dy t : ℚ) : Vec4R :=
  let fx : ℝ := (ux : ℝ) - (mx : ℝ)
  let fy : ℝ := (uy : ℝ) - (my : ℝ)
  let force : ℝ := Real.exp (-(smokeDist ux uy mx my * 40))
  let vmag : ℝ := Real.sqrt (((dx : ℚ) : ℝ)^2 + ((dy : ℚ) : ℝ)^2)
  { r := 0.97 * c.r + (0.5 + 0.5 * Real.sin ((t : ℝ) + fx * 10)) * force * vmag * 3,
    g := 0.97 * c.g + (0.5 + 0.5 * Real.sin ((t : ℝ) + fy * 10 + 2)) * force * vmag * 3,
    b := 0.97 * c.b + (0.5 + 0.5 * Real.sin ((t : ℝ) + 4)) * force * vmag * 3,
    a := 0.97 * c.a }

/-- The whole-buffer smoke update over the 512x512 target.  The shader reads
the previous buffer at vUv only: the new value of a cell depends on no
other cell. -/
noncomputable def smokeGridStep (g : ℤ → ℤ → Vec4R) (mx my dx dy t : ℚ) :
    ℤ → ℤ → Vec4R :=
  fun i j => smokeCellStep (g i j) (texel 512 i) (texel 512 j) mx my dx dy t

/-- Iterated smoke frames: each tick runs one grid update with the current
pointer delta, then animate decays the delta by 0.9 for the next frame;
the time uniform follows the given frame-time sequence. -/
noncomputable def smokeRun (mx my : ℚ) : ℚ → ℚ → (ℕ → ℚ) →
    ℕ → (ℤ → ℤ → Vec4R) → (ℤ → ℤ → Vec4R)
  | _, _, _, 0, g => g
  | dx, dy, ts, n + 1, g =>
      smokeRun mx my (9/10 * dx) (9/10 * dy) (fun k => ts (k + 1)) n
        (smokeGridStep g mx my dx dy (ts 0))

/-- A smoke buffer holding the value v in all four channels of a single cell
and zero everywhere else. -/
noncomputable def smokeSingle (i0 j0 : ℤ) (v : ℚ) : ℤ → ℤ → Vec4R :=
  fun i j => if i = i0 ∧ j = j0 then ⟨(v : ℝ), (v : ℝ), (v : ℝ), (v : ℝ)⟩
             else ⟨0, 0, 0, 0⟩

/-- The all-zero smoke buffer. -/
noncomputable def zeroSGrid : ℤ → ℤ → Vec4R := fun _ _ => ⟨0, 0, 0, 0⟩

/-- The all-zero flame buffer. -/
noncomputable def zeroGrid : ℤ → ℤ → ℝ := fun _ _ => 0

/-- The all-one flame buffer. -/
noncomputable def oneGrid : ℤ → ℤ → ℝ := fun _ _ => 1

/-- The two smoke render targets: rtA is the front buffer read by the
simulation pass, rtB the back buffer it renders into. -/
structure SmokeBuffers where
  rtA : ℤ → ℤ → Vec4R
  rtB : ℤ → ℤ → Vec4R

/-- The smoke simulation pass: render the update of rtA into rtB. -/
noncomputable def smokeSimPass (mx my dx dy t : ℚ) (s : SmokeBuffers) :
    SmokeBuffers :=
  { rtA := s.rtA, rtB := smokeGridStep s.rtA mx my dx dy t }

/-- The swap of SmokeCanvas.jsx: [rtA, rtB] = [rtB, rtA]. -/
def smokeSwapBuffers (s : SmokeBuffers) : SmokeBuffers :=
  { rtA := s.rtB, rtB := s.rtA }

/-- One smoke animate tick up to the display: simulation then swap. -/
noncomputable def smokeTick (mx my dx dy t : ℚ) (s : SmokeBuffers) :
    SmokeBuffers :=
  smokeSwapBuffers (smokeSimPass mx my dx dy t s)

/-- The texture the composer's render pass samples during the display render
at the end of a smoke tick that started from state s.  SmokeCanvas.jsx sets
uTexture.value = rtA.texture before the simulation render and the swap and
never re-points it afterwards, so when composer.render() runs, the sampled
texture is the buffer that was rtA at the start of the tick — the pre-swap
front, not the buffer the tick just wrote. -/
noncomputable def smokeDisplaySource (s : SmokeBuffers) : ℤ → ℤ → Vec4R :=
  s.rtA

/-- The smoke pointer state: normalised position and one-event delta. -/
structure SmokeMouse where
  x : ℚ
  y : ℚ
  dx : ℚ
  dy : ℚ

/-- The handleMove handler of SmokeCanvas.jsx: new normalised position from
client coordinates, delta against the previous position. -/
def smokeHandleMove (m : SmokeMouse) (w h cx cy : ℚ) : SmokeMouse :=
  { x := cx / w, y := cy / h, dx := cx / w - m.x, dy := cy / h - m.y }

/-- The uMouse uniform as the smoke animate sets it:
set(mouse.x, 1 - mouse.y, mouse.dx, mouse.dy). -/
def smokeMouseUniform (m : SmokeMouse) : ℚ × ℚ × ℚ × ℚ :=
  (m.x, 1 - m.y, m.dx, m.dy)

/-- The per-frame pointer decay of the smoke animate loop:
mouse.dx *= 0.9; mouse.dy *= 0.9. -/
def smokeFrameDecay (m : SmokeMouse) : SmokeMouse :=
  { m with dx := 9/10 * m.dx, dy := 9/10 * m.dy }

/-- The diffusion step as the specification words it: read the 4-connected
neighbourhood, form the unweighted average of those four plus the centre,
and blend the centre toward that average by the mix factor. -/
noncomputable def claimDiffusion (θ c top bottom left right : ℝ) : ℝ :=
  c + θ * ((top + bottom + left + right + c) / 5 - c)

/-- Screen position of a normalised coordinate on a w-by-h display. -/
def screenOf (w h ux uy : ℚ) : ℚ × ℚ := (ux * w, uy * h)

/-- A smoke buffer that is zero everywhere except one neighbour cell of the
texel (1, 1): the cell (0, 1) holds one in every channel. -/
noncomputable def nbrSGrid : ℤ → ℤ → Vec4R :=
  fun i j => if i = 0 ∧ j = 1 then ⟨1, 1, 1, 1⟩ else ⟨0, 0, 0, 0⟩

/-! ## Helper lemmas -/

theorem smokeCellStep_r (c : Vec4R) (ux uy mx my dx dy t : ℚ) :
    (smokeCellStep c ux uy mx my dx dy t).r =
      0.97 * c.r + (0.5 + 0.5 * Real.sin ((t : ℝ) + ((ux : ℝ) - (mx : ℝ)) * 10))
        * Real.exp (-(smokeDist ux uy mx my * 40))
        * Real.sqrt (((dx : ℚ) : ℝ)^2 + ((dy : ℚ) : ℝ)^2) * 3 := rfl

theorem smokeCellStep_g (c : Vec4R) (ux uy mx my dx dy t : ℚ) :
    (smokeCellStep c ux uy mx my dx dy t).g =
      0.97 * c.g + (0.5 + 0.5 * Real.sin ((t : ℝ) + ((uy : ℝ) - (my : ℝ)) * 10 + 2))
        * Real.exp (-(smokeDist ux uy mx my * 40))
        * Real.sqrt (((dx : ℚ) : ℝ)^2 + ((dy : ℚ) : ℝ)^2) * 3 := rfl

theorem smokeCellStep_b (c : Vec4R) (ux uy mx my dx dy t : ℚ) :
    (smokeCellStep c ux uy mx my dx dy t).b =
      0.97 * c.b + (0.5 + 0.5 * Real.sin ((t : ℝ) + 4))
        * Real.exp (-(smokeDist ux uy mx my * 40))
        * Real.sqrt (((dx : ℚ) : ℝ)^2 + ((dy : ℚ) : ℝ)^2) * 3 := rfl

theorem smokeCellStep_a (c : Vec4R) (ux uy mx my dx dy t : ℚ) :
    (smokeCellStep c ux uy mx my dx dy t).a = 0.97 * c.a := rfl

theorem smokeCellStep_zeroDelta (c : Vec4R) (ux uy mx my t : ℚ) :
    smokeCellStep c ux uy mx my 0 0 t =
      ⟨0.97 * c.r, 0.97 * c.g, 0.97 * c.b, 0.97 * c.a⟩ := by
  unfold smokeCellStep
  norm_num

theorem halfSin_nonneg (x : ℝ) : 0 ≤ 0.5 + 0.5 * Real.sin x := by
  nlinarith [Real.neg_one_le_sin x]

theorem smokeCellStep_nonneg (c : Vec4R) (ux uy mx my dx dy t : ℚ)
    (h : Vec4Nonneg c) :
    Vec4Nonneg (smokeCellStep c ux uy mx my dx dy t) := by
  obtain ⟨hr, hg, hb, ha⟩ := h
  have hinj : ∀ x : ℝ, 0 ≤ (0.5 + 0.5 * Real.sin x)
      * Real.exp (-(smokeDist ux uy mx my * 40))
      * Real.sqrt (((dx : ℚ) : ℝ)^2 + ((dy : ℚ) : ℝ)^2) * 3 := by
    intro x
    have h1 := halfSin_nonneg x
    have h2 := (Real.exp_pos (-(smokeDist ux uy mx my * 40))).le
    have h3 := Real.sqrt_nonneg (((dx : ℚ) : ℝ)^2 + ((dy : ℚ) : ℝ)^2)
    have h4 : (0:ℝ) ≤ 3 := by norm_num
    exact mul_nonneg (mul_nonneg (mul_nonneg h1 h2) h3) h4
  refine ⟨?_, ?_, ?_, ?_⟩
  · rw [smokeCellStep_r]
    have := hinj ((t : ℝ) + ((ux : ℝ) - (mx : ℝ)) * 10)
    nlinarith
  · rw [smokeCellStep_g]
    have := hinj ((t : ℝ) + ((uy : ℝ) - (my : ℝ)) * 10 + 2)
    nlinarith
  · rw [smokeCellStep_b]
    have := hinj ((t : ℝ) + 4)
    nlinarith
  · rw [smokeCellStep_a]
    nlinarith

theorem flameCellStep_nonneg (P : FlamePreset) (a mx my mz ux uy : ℚ)
    (c top bottom left right : ℝ) :
    0 ≤ flameCellStep P a mx my mz ux uy c top bottom left right :=
  le_max_right _ 0

/-! ## Claim theorems -/

/-- Claim C1 (amended): after one flame update every cell is non-negative
unconditionally (the flame shader ends in max(diff, 0.0)); the smoke update
has no clamp, but it preserves non-negativity of all four channels, so from
the zero-initialised buffers every channel stays non-negative after every
update. -/
theorem c1_update_nonneg :
    (∀ (P : FlamePreset) (a mx my mz : ℚ) (g : ℤ → ℤ → ℝ) (i j : ℤ),
       0 ≤ flameGridStep P a mx my mz g i j)
    ∧ (∀ (g : ℤ → ℤ → Vec4R) (mx my dx dy t : ℚ) (i j : ℤ),
       Vec4Nonneg (g i j) → Vec4Nonneg (smokeGridStep g mx my dx dy t i j)) := by
  constructor
  · intro P a mx my mz g i j
    exact flameCellStep_nonneg P a mx my mz _ _ _ _ _ _ _
  · intro g mx my dx dy t i j h
    exact smokeCellStep_nonneg _ _ _ _ _ _ _ _ h

/-- Claim C1, counterexample to the clamping clause: the smoke update does
not clamp its result at zero before writing.  A cell whose red channel
holds minus one is written back as minus 0.97 with an idle pointer: a
clamped update would write a non-negative value on any input. -/
theorem c1_counterexample_smoke_no_clamp :
    (smokeCellStep ⟨-1, -1, -1, -1⟩ 0 0 0 0 0 0 0).r = -(97/100 : ℝ) ∧
      ((-(97/100 : ℝ)) < 0) := by
  constructor
  · rw [smokeCellStep_zeroDelta]
    norm_num
  · norm_num

/-- Claim C3: one flame tick is a pure function of the front buffer (and the
uniforms): two buffer states with the same targetA produce identical states
after the tick, whatever the prior contents of the back buffer targetB. -/
theorem c3_tick_independent_of_back (P : FlamePreset) (a mx my mz : ℚ)
    (s1 s2 : FlameBuffers) (h : s1.targetA = s2.targetA) :
    flameTick P a mx my mz s1 = flameTick P a mx my mz s2 := by
  unfold flameTick flameSimPass flameSwapBuffers
  rw [h]

/-- Witness for C3 at a concrete input: two states sharing the zero front
buffer but holding different back buffers tick to the same state. -/
theorem c3_tick_independent_of_back_witness :
    flameTick flamePresetSlow 1 0 0 0 ⟨zeroGrid, zeroGrid⟩ =
      flameTick flamePresetSlow 1 0 0 0 ⟨zeroGrid, oneGrid⟩ :=
  c3_tick_independent_of_back flamePresetSlow 1 0 0 0 _ _ rfl

/-- Claim C7 (amended): after the swap that ends a flame tick, the front
buffer targetA is exactly the buffer the simulation just wrote, it is what
the flame display pass reads (tex is re-pointed at targetA after the swap)
and the next update's input, and the previous front buffer has become the
back buffer; the swap exchanges the two handles only, so swapping twice
restores the state unchanged.  For the smoke orchestrator, front() after
the swap is likewise the just-written buffer and the next update's input
and the swap is a pure handle exchange — but the display render of the
same tick reads the pre-swap front, which the swap has just made the back
buffer, not the buffer just written. -/
theorem c7_swap_correctness :
    (∀ (P : FlamePreset) (a mx my mz : ℚ) (s : FlameBuffers),
       (flameTick P a mx my mz s).targetA = flameGridStep P a mx my mz s.targetA ∧
       (flameTick P a mx my mz s).targetB = s.targetA ∧
       flameDisplaySource (flameTick P a mx my mz s) =
         flameGridStep P a mx my mz s.targetA ∧
       flameSwapBuffers (flameSwapBuffers s) = s)
    ∧ (∀ (mx my dx dy t : ℚ) (s : SmokeBuffers),
       (smokeTick mx my dx dy t s).rtA = smokeGridStep s.rtA mx my dx dy t ∧
       (smokeTick mx my dx dy t s).rtB = s.rtA ∧
       smokeDisplaySource s = (smokeTick mx my dx dy t s).rtB ∧
       smokeSwapBuffers (smokeSwapBuffers s) = s) :=
  ⟨fun _ _ _ _ _ _ => ⟨rfl, rfl, rfl, rfl⟩,
   fun _ _ _ _ _ _ => ⟨rfl, rfl, rfl, rfl⟩⟩

/-- Claim C7, counterexample: in SmokeCanvas the buffer the update just
wrote is not the one the display render reads.  Starting a tick from a
front buffer holding one at the corner cell (zero delta, so the update only
scales), the just-written post-swap front holds 0.97 at that cell while the
display render samples the pre-swap front, still holding 1 — and the
sampled buffer is exactly the post-swap back buffer. -/
theorem c7_counterexample_smoke_display_reads_old :
    (smokeDisplaySource ⟨smokeSingle 0 0 1, zeroSGrid⟩ 0 0).r = 1 ∧
      ((smokeTick 0 0 0 0 0 ⟨smokeSingle 0 0 1, zeroSGrid⟩).rtA 0 0).r
        = (97/100 : ℝ) ∧
      ((1 : ℝ) ≠ 97/100) ∧
      smokeDisplaySource ⟨smokeSingle 0 0 1, zeroSGrid⟩ =
        (smokeTick 0 0 0 0 0 ⟨smokeSingle 0 0 1, zeroSGrid⟩).rtB := by
  have hone : (smokeSingle 0 0 1 0 0).r = 1 := by
    unfold smokeSingle
    norm_num
  refine ⟨hone, ?_, by norm_num, rfl⟩
  show (smokeCellStep (smokeSingle 0 0 1 0 0) (texel 512 0) (texel 512 0)
      0 0 0 0 0).r = (97/100 : ℝ)
  rw [smokeCellStep_zeroDelta]
  dsimp only
  rw [hone]
  norm_num

/-- Claim C8: the useEffect cleanup of FlameCanvas.jsx disposes both render
targets but never cancels the queued requestAnimationFrame callback, so
after cleanup a queued tick is still registered to fire against the
disposed buffers.  Evaluated at the running state (callback queued, all
listeners registered, buffers live). -/
theorem c8_cleanup_leaves_tick_queued :
    (flameCleanup ⟨true, true, true, true, false⟩).rafQueued = true ∧
      (flameCleanup ⟨true, true, true, true, false⟩).buffersDisposed = true ∧
      (flameCleanup ⟨true, true, true, true, false⟩).touchRegistered = true :=
  ⟨rfl, rfl, rfl⟩

/-- Claim C9 (amended): onResize applies no validation at all; it always
writes w / h into the aspect uniform, so for positive dimensions the aspect
stays positive, but nothing ignores a zero or negative notification. -/
theorem c9_resize_positive_aspect (prev w h : ℚ) (hw : 0 < w) (hh : 0 < h) :
    flameOnResize prev w h = w / h ∧ 0 < flameOnResize prev w h :=
  ⟨rfl, div_pos hw hh⟩

/-- Witness for C9 at a concrete input: resizing a live 16:9 window. -/
theorem c9_resize_positive_aspect_witness :
    flameOnResize (4/3) 16 9 = 16 / 9 ∧ 0 < flameOnResize (4/3) 16 9 :=
  c9_resize_positive_aspect (4/3) 16 9 (by norm_num) (by norm_num)

/-- Claim C9, counterexample: a resize notification with a negative height
is not ignored; onResize writes the negative quotient into the aspect
uniform instead of retaining the previous valid value, so the aspect fed to
the update rule is neither the retained one nor positive. -/
theorem c9_counterexample_negative_resize :
    flameOnResize (4/3) 800 (-600) = -(4/3) ∧
      flameOnResize (4/3) 800 (-600) ≠ 4/3 ∧
      ¬ (0 < flameOnResize (4/3) 800 (-600)) := by
  refine ⟨?_, ?_, ?_⟩ <;> norm_num [flameOnResize]

/-- Claim C10: the pointer position handed to the forcing computation is the
normalised event position with the vertical coordinate flipped, in both
components: the flame animate passes (x, 1 - y, 0) and the smoke animate
passes (x, 1 - y, dx, dy) for an event at normalised (x, y) measured from
the top-left. -/
theorem c10_pointer_y_flip :
    (∀ w h cx cy : ℚ,
       flameMouseUniform (flameOnMove w h cx cy) = (cx / w, 1 - cy / h, 0))
    ∧ (∀ (m : SmokeMouse) (w h cx cy : ℚ),
       smokeMouseUniform (smokeHandleMove m w h cx cy) =
         (cx / w, 1 - cy / h, cx / w - m.x, cy / h - m.y)) :=
  ⟨fun _ _ _ _ => rfl, fun _ _ _ _ _ => rfl⟩

/-- Projection of the zero-delta smoke update through the grid step. -/
theorem smokeGridStep_zeroDelta_r (g : ℤ → ℤ → Vec4R) (mx my t : ℚ) (i j : ℤ) :
    (smokeGridStep g mx my 0 0 t i j).r = 0.97 * (g i j).r := by
  show (smokeCellStep (g i j) (texel 512 i) (texel 512 j) mx my 0 0 t).r = _
  rw [smokeCellStep_zeroDelta]

/-- Claim C5 (amended): the flame update of both presets is exactly the
clamp of cooling applied to the spec-worded diffusion (blend the centre
toward the unweighted average of the four edge-clamped neighbours plus the
centre) plus the forcing term, with mix factors 0.6 and 0.8, both strictly
between 0 and 1; the smoke update has no diffusion step at all: the new
value of a cell depends only on that cell's own previous value. -/
theorem c5_flame_diffusion_structure :
    (∀ (P : FlamePreset) (a mx my mz : ℚ) (g : ℤ → ℤ → ℝ) (i j : ℤ),
       flameGridStep P a mx my mz g i j =
         max (claimDiffusion (P.mixFactor : ℝ)
                (g (clampCoord 256 i) (clampCoord 256 j))
                (g (clampCoord 256 i) (clampCoord 256 (j + 1)))
                (g (clampCoord 256 i) (clampCoord 256 (j - 1)))
                (g (clampCoord 256 (i - 1)) (clampCoord 256 j))
                (g (clampCoord 256 (i + 1)) (clampCoord 256 j))
              * (P.coolMul : ℝ) - (P.coolSub : ℝ)
              + flameForcing P a mx my (texel 256 i) (texel 256 j)) 0)
    ∧ (0 < flamePresetSlow.mixFactor ∧ flamePresetSlow.mixFactor < 1)
    ∧ (0 < flamePresetFast.mixFactor ∧ flamePresetFast.mixFactor < 1)
    ∧ (∀ (g1 g2 : ℤ → ℤ → Vec4R) (mx my dx dy t : ℚ) (i j : ℤ),
       g1 i j = g2 i j →
       smokeGridStep g1 mx my dx dy t i j = smokeGridStep g2 mx my dx dy t i j) := by
  refine ⟨?_, ?_, ?_, ?_⟩
  · intro P a mx my mz g i j
    unfold flameGridStep flameCellStep glslMix claimDiffusion
    congr 1
    ring
  · constructor <;> norm_num [flamePresetSlow]
  · constructor <;> norm_num [flamePresetFast]
  · intro g1 g2 mx my dx dy t i j h
    unfold smokeGridStep
    rw [h]

/-- Claim C5, counterexample: the smoke update contains no diffusion step.
No mix factor strictly between 0 and 1 can express the smoke update of the
cell (1, 1) as cooling of the claimed centre-toward-average blend plus any
fixed injection: the smoke output is unchanged when only the neighbours of
the cell change, while the claimed blend is not. -/
theorem c5_counterexample_smoke_no_diffusion :
    ¬ ∃ (θ inj : ℝ), 0 < θ ∧ θ < 1 ∧
      ∀ g : ℤ → ℤ → Vec4R,
        (smokeGridStep g 0 0 0 0 0 1 1).r =
          0.97 * claimDiffusion θ ((g 1 1).r) ((g 1 2).r) ((g 1 0).r)
            ((g 0 1).r) ((g 2 1).r) + inj := by
  rintro ⟨θ, inj, hθ0, _, h⟩
  have h0 := h zeroSGrid
  have h1 := h nbrSGrid
  rw [smokeGridStep_zeroDelta_r] at h0 h1
  simp only [zeroSGrid, nbrSGrid, claimDiffusion] at h0 h1
  norm_num at h0 h1
  nlinarith

/-- Claim C6 (amended): the flame injection is completely independent of the
third mouse-uniform component (the only activity channel animate passes,
and it always passes 0), and the smoke injection is proportional to the
pointer velocity magnitude: with a zero delta the smoke update adds nothing
to any channel. -/
theorem c6_forcing_structure :
    (∀ (P : FlamePreset) (a mx my mz mz' ux uy : ℚ) (c top bottom left right : ℝ),
       flameCellStep P a mx my mz ux uy c top bottom left right =
         flameCellStep P a mx my mz' ux uy c top bottom left right)
    ∧ (∀ (c : Vec4R) (ux uy mx my t : ℚ),
       smokeCellStep c ux uy mx my 0 0 t =
         ⟨0.97 * c.r, 0.97 * c.g, 0.97 * c.b, 0.97 * c.a⟩) :=
  ⟨fun _ _ _ _ _ _ _ _ _ _ _ _ _ => rfl,
   fun c ux uy mx my t => smokeCellStep_zeroDelta c ux uy mx my t⟩

/-- Claim C6, counterexample: the flame injected amount is not scaled by any
pointer activity or velocity magnitude.  The animate loop always passes 0
as the activity component of the mouse uniform, yet a cell at the pointer
position still receives the full injection 0.7. -/
theorem c6_counterexample_idle_pointer_injects :
    (flameMouseUniform (1/2, 1/2)).2.2 = 0 ∧
      flameForcing flamePresetSlow 1 ((flameMouseUniform (1/2, 1/2)).1)
        ((flameMouseUniform (1/2, 1/2)).2.1) (1/2) (1/2) = (7/10 : ℝ) ∧
      (7/10 : ℝ) ≠ 0 := by
  have hm : flameMouseUniform (1/2, 1/2) = (1/2, 1/2, 0) := by
    unfold flameMouseUniform
    norm_num
  refine ⟨by rw [hm], ?_, by norm_num⟩
  rw [hm]
  show flameForcing flamePresetSlow 1 (1/2) (1/2) (1/2) (1/2) = (7/10 : ℝ)
  have hlen : flameLen 1 (1/2) (1/2) (1/2) (1/2) = 0 := by
    unfold flameLen flameLenSq
    norm_num
  have hcond : flameLen 1 (1/2) (1/2) (1/2) (1/2) <
      ((flamePresetSlow.radius : ℚ) : ℝ) := by
    rw [hlen]
    norm_num [flamePresetSlow]
  unfold flameForcing
  rw [if_pos hcond, hlen]
  unfold smoothstepR
  norm_num [flamePresetSlow]

/-- The GLSL smoothstep from a positive edge down to zero is strictly
positive strictly inside the edge. -/
theorem smoothstepR_pos {r x : ℝ} (hr : 0 < r) (hx0 : 0 ≤ x) (hxr : x < r) :
    0 < smoothstepR r 0 x := by
  unfold smoothstepR
  have hz : (x - r) / (0 - r) = (r - x) / r := by
    rw [zero_sub, div_neg, ← neg_div]
    congr 1
    ring
  rw [hz]
  have h1 : 0 < (r - x) / r := div_pos (by linarith) hr
  have h2 : (r - x) / r ≤ 1 := by
    rw [div_le_one hr]
    linarith
  rw [max_eq_left h1.le, min_eq_left h2]
  have h3 : 0 < 3 - 2 * ((r - x) / r) := by linarith
  positivity

/-- The flame injection is non-zero exactly on the cells strictly inside the
brush radius. -/
theorem flameForcing_ne_zero_iff (P : FlamePreset) (hr : 0 < P.radius)
    (hs : 0 < P.strength) (a mx my ux uy : ℚ) :
    flameForcing P a mx my ux uy ≠ 0 ↔
      flameLen a mx my ux uy < (P.radius : ℝ) := by
  unfold flameForcing
  constructor
  · intro h
    by_contra hlt
    rw [if_neg hlt] at h
    exact h rfl
  · intro hlt
    rw [if_pos hlt]
    have hr' : (0 : ℝ) < (P.radius : ℚ) := by exact_mod_cast hr
    have hs' : (0 : ℝ) < (P.strength : ℚ) := by exact_mod_cast hs
    have h0 : 0 ≤ flameLen a mx my ux uy := Real.sqrt_nonneg _
    exact ne_of_gt (mul_pos (smoothstepR_pos hr' h0 hlt) hs')

/-- The brush-radius comparison of the flame shader, reduced to an exact
rational comparison of squares. -/
theorem flameLen_lt_iff (P : FlamePreset) (hr : 0 < P.radius)
    (a mx my ux uy : ℚ) :
    flameLen a mx my ux uy < (P.radius : ℝ) ↔
      flameLenSq a mx my ux uy < P.radius ^ 2 := by
  unfold flameLen
  have hr' : (0 : ℝ) < (P.radius : ℚ) := by exact_mod_cast hr
  rw [Real.sqrt_lt' hr']
  constructor
  · intro h
    exact_mod_cast h
  · intro h
    exact_mod_cast h

/-- The rational algebra behind the circular footprint: multiplying the
aspect-corrected squared distance by the squared height turns it into the
squared screen-space distance. -/
theorem flameLenSq_screen (w h mx my ux uy : ℚ) (hh : h ≠ 0) :
    flameLenSq (w / h) mx my ux uy * h ^ 2 =
      ((screenOf w h ux uy).1 - (screenOf w h mx my).1) ^ 2 +
        ((screenOf w h ux uy).2 - (screenOf w h mx my).2) ^ 2 := by
  unfold flameLenSq screenOf
  field_simp
  ring

/-- Claim C4 (amended): for the flame updates (both presets) the forcing
distance is computed with the x difference scaled by the aspect ratio
w / h, and the set of cells receiving non-zero forcing is exactly the disc
of screen-space radius r * h around the pointer's screen position, for
every aspect ratio: a circle, never an ellipse, in screen space.  (The
smoke update performs no aspect correction; see the counterexample.) -/
theorem c4_flame_circular_footprint (w h mx my ux uy : ℚ)
    (hw : 0 < w) (hh : 0 < h) :
    (flameForcing flamePresetSlow (w / h) mx my ux uy ≠ 0 ↔
       ((screenOf w h ux uy).1 - (screenOf w h mx my).1) ^ 2 +
         ((screenOf w h ux uy).2 - (screenOf w h mx my).2) ^ 2 <
           (flamePresetSlow.radius * h) ^ 2)
    ∧ (flameForcing flamePresetFast (w / h) mx my ux uy ≠ 0 ↔
       ((screenOf w h ux uy).1 - (screenOf w h mx my).1) ^ 2 +
         ((screenOf w h ux uy).2 - (screenOf w h mx my).2) ^ 2 <
           (flamePresetFast.radius * h) ^ 2) := by
  have key : ∀ P : FlamePreset, 0 < P.radius → 0 < P.strength →
      (flameForcing P (w / h) mx my ux uy ≠ 0 ↔
        ((screenOf w h ux uy).1 - (screenOf w h mx my).1) ^ 2 +
          ((screenOf w h ux uy).2 - (screenOf w h mx my).2) ^ 2 <
            (P.radius * h) ^ 2) := by
    intro P hr hs
    rw [flameForcing_ne_zero_iff P hr hs, flameLen_lt_iff P hr,
      ← flameLenSq_screen w h mx my ux uy hh.ne.symm ]
    rw [show (P.radius * h) ^ 2 = P.radius ^ 2 * h ^ 2 from by ring]
    exact (mul_lt_mul_right (by positivity)).symm
  exact ⟨key flamePresetSlow (by norm_num [flamePresetSlow])
          (by norm_num [flamePresetSlow]),
         key flamePresetFast (by norm_num [flamePresetFast])
          (by norm_num [flamePresetFast])⟩

/-- Witness for C4 at a concrete input: a 16:9 display with the pointer and
the cell at the centre. -/
theorem c4_flame_circular_footprint_witness :
    (flameForcing flamePresetSlow (16 / 9) (1/2) (1/2) (1/2) (1/2) ≠ 0 ↔
       ((screenOf 16 9 (1/2) (1/2)).1 - (screenOf 16 9 (1/2) (1/2)).1) ^ 2 +
         ((screenOf 16 9 (1/2) (1/2)).2 - (screenOf 16 9 (1/2) (1/2)).2) ^ 2 <
           (flamePresetSlow.radius * 9) ^ 2)
    ∧ (flameForcing flamePresetFast (16 / 9) (1/2) (1/2) (1/2) (1/2) ≠ 0 ↔
       ((screenOf 16 9 (1/2) (1/2)).1 - (screenOf 16 9 (1/2) (1/2)).1) ^ 2 +
         ((screenOf 16 9 (1/2) (1/2)).2 - (screenOf 16 9 (1/2) (1/2)).2) ^ 2 <
           (flamePresetFast.radius * 9) ^ 2) :=
  c4_flame_circular_footprint 16 9 (1/2) (1/2) (1/2) (1/2)
    (by norm_num) (by norm_num)

/-- Claim C4, counterexample: the smoke shader's forcing distance is not
aspect-corrected.  At aspect ratio 2, for the pointer at (1/2, 1/2) and the
cell at (1, 1/2), the smoke shader uses distance 1/2 while the
aspect-corrected distance (as the flame shader computes it) is 1. -/
theorem c4_counterexample_smoke_distance :
    smokeDist 1 (1/2) (1/2) (1/2) = (1/2 : ℝ) ∧
      flameLen 2 (1/2) (1/2) 1 (1/2) = (1 : ℝ) ∧
      ((1/2 : ℝ) ≠ 1) := by
  refine ⟨?_, ?_, by norm_num⟩
  · unfold smokeDist
    rw [show (((1:ℚ):ℝ) - ((1/2:ℚ):ℝ))^2 + (((1/2:ℚ):ℝ) - ((1/2:ℚ):ℝ))^2
        = (1/2 : ℝ)^2 from by push_cast; ring]
    exact Real.sqrt_sq (by norm_num)
  · unfold flameLen flameLenSq
    norm_num

/-- An edge-clamped coordinate lies in the texture domain. -/
theorem clampCoord_inDom (n : ℕ) (hn : 0 < n) (i j : ℤ) :
    InDom n (clampCoord n i) (clampCoord n j) := by
  unfold InDom clampCoord
  omega

/-- One flame cell update under an upper bound: if every input sample is at
most M and the cell receives no forcing, the output is at most
max 0 (M - coolSub). -/
theorem flameCellStep_le (P : FlamePreset) (hm0 : 0 ≤ P.mixFactor)
    (hm1 : P.mixFactor ≤ 1) (hc0 : 0 ≤ P.coolMul) (hc1 : P.coolMul ≤ 1)
    (a mx my mz ux uy : ℚ) (hf : flameForcing P a mx my ux uy = 0)
    {M : ℝ} (hM : 0 ≤ M) {c top bottom left right : ℝ}
    (h1 : c ≤ M) (h2 : top ≤ M) (h3 : bottom ≤ M) (h4 : left ≤ M)
    (h5 : right ≤ M) :
    flameCellStep P a mx my mz ux uy c top bottom left right ≤
      max 0 (M - (P.coolSub : ℝ)) := by
  unfold flameCellStep glslMix
  rw [hf, add_zero]
  have hm0' : (0 : ℝ) ≤ (P.mixFactor : ℚ) := by exact_mod_cast hm0
  have hm1' : ((P.mixFactor : ℚ) : ℝ) ≤ 1 := by exact_mod_cast hm1
  have hc0' : (0 : ℝ) ≤ (P.coolMul : ℚ) := by exact_mod_cast hc0
  have hc1' : ((P.coolMul : ℚ) : ℝ) ≤ 1 := by exact_mod_cast hc1
  have havg : (top + bottom + left + right + c) / 5 ≤ M := by linarith
  have hmix : c * (1 - (P.mixFactor : ℝ)) +
      (top + bottom + left + right + c) / 5 * (P.mixFactor : ℝ) ≤ M := by
    nlinarith
  have hcool : (c * (1 - (P.mixFactor : ℝ)) +
      (top + bottom + left + right + c) / 5 * (P.mixFactor : ℝ))
        * (P.coolMul : ℝ) ≤ M := by
    calc (c * (1 - (P.mixFactor : ℝ)) +
          (top + bottom + left + right + c) / 5 * (P.mixFactor : ℝ))
            * (P.coolMul : ℝ)
        ≤ M * (P.coolMul : ℝ) := by
          exact mul_le_mul_of_nonneg_right hmix hc0'
      _ ≤ M := by nlinarith
  refine max_le ?_ (le_max_left 0 _)
  exact le_trans (by linarith) (le_max_right 0 _)

/-- Clamping at zero commutes with the repeated absolute drop. -/
theorem max_zero_sub_absorb (x s : ℝ) (hs : 0 ≤ s) :
    max 0 (max 0 x - s) = max 0 (x - s) := by
  rcases le_total x 0 with h | h
  · rw [max_eq_left h, max_eq_left (by linarith), max_eq_left (by linarith)]
  · rw [max_eq_right h]

/-- Iterated flame updates under a forcing-free pointer shrink any uniform
bound by the absolute decay constant each frame, clamped at zero. -/
theorem flameRun_le (P : FlamePreset) (hm0 : 0 ≤ P.mixFactor)
    (hm1 : P.mixFactor ≤ 1) (hc0 : 0 ≤ P.coolMul) (hc1 : P.coolMul ≤ 1)
    (hs0 : 0 ≤ P.coolSub) (a mx my mz : ℚ)
    (hf : ∀ i j : ℤ, InDom 256 i j →
      flameForcing P a mx my (texel 256 i) (texel 256 j) = 0) :
    ∀ (n : ℕ) (g : ℤ → ℤ → ℝ) (M : ℝ), 0 ≤ M →
      (∀ i j : ℤ, InDom 256 i j → g i j ≤ M) →
      ∀ i j : ℤ, InDom 256 i j →
        flameRun P a mx my mz n g i j ≤
          max 0 (M - n * (P.coolSub : ℝ)) := by
  intro n
  induction n with
  | zero =>
    intro g M hM hg i j hij
    have : max 0 (M - (0 : ℕ) * (P.coolSub : ℝ)) = M := by
      rw [Nat.cast_zero, zero_mul, sub_zero, max_eq_right hM]
    rw [this]
    exact hg i j hij
  | succ n ih =>
    intro g M hM hg i j hij
    have hstep : ∀ i j : ℤ, InDom 256 i j →
        flameGridStep P a mx my mz g i j ≤ max 0 (M - (P.coolSub : ℝ)) := by
      intro i' j' hij'
      unfold flameGridStep
      have hc := clampCoord_inDom 256 (by norm_num) i' j'
      have ht := clampCoord_inDom 256 (by norm_num) i' (j' + 1)
      have hb := clampCoord_inDom 256 (by norm_num) i' (j' - 1)
      have hl := clampCoord_inDom 256 (by norm_num) (i' - 1) j'
      have hrr := clampCoord_inDom 256 (by norm_num) (i' + 1) j'
      exact flameCellStep_le P hm0 hm1 hc0 hc1 a mx my mz _ _
        (hf i' j' hij') hM (hg _ _ hc) (hg _ _ ht) (hg _ _ hb)
        (hg _ _ hl) (hg _ _ hrr)
    have := ih (flameGridStep P a mx my mz g) (max 0 (M - (P.coolSub : ℝ)))
      (le_max_left 0 _) hstep i j hij
    calc flameRun P a mx my mz (n + 1) g i j
        = flameRun P a mx my mz n (flameGridStep P a mx my mz g) i j := rfl
      _ ≤ max 0 (max 0 (M - (P.coolSub : ℝ)) - n * (P.coolSub : ℝ)) := this
      _ = max 0 (M - (n + 1 : ℕ) * (P.coolSub : ℝ)) := by
          have hs0' : (0 : ℝ) ≤ (P.coolSub : ℚ) := by exact_mod_cast hs0
          rw [max_zero_sub_absorb _ _ (by positivity)]
          congr 1
          push_cast
          ring

/-- Iterated flame updates preserve non-negativity of the whole buffer. -/
theorem flameRun_nonneg (P : FlamePreset) (a mx my mz : ℚ) :
    ∀ (n : ℕ) (g : ℤ → ℤ → ℝ), (∀ i j : ℤ, 0 ≤ g i j) →
      ∀ i j : ℤ, 0 ≤ flameRun P a mx my mz n g i j := by
  intro n
  induction n with
  | zero => intro g hg i j; exact hg i j
  | succ n ih =>
    intro g hg i j
    exact ih (flameGridStep P a mx my mz g)
      (fun i' j' => flameCellStep_nonneg P a mx my mz _ _ _ _ _ _ _) i j

/-- Claim C2 (amended, flame side): from a buffer holding v at a single cell
and zero elsewhere, with the pointer placed so that no texel receives
forcing, every texel of the flame field is exactly zero after any number of
frames n with v at most n times the absolute decay constant. -/
theorem c2_flame_decay_to_zero (P : FlamePreset) (hm0 : 0 ≤ P.mixFactor)
    (hm1 : P.mixFactor ≤ 1) (hc0 : 0 ≤ P.coolMul) (hc1 : P.coolMul ≤ 1)
    (hs0 : 0 ≤ P.coolSub) (a mx my mz : ℚ) (i0 j0 : ℤ) (v : ℚ) (hv : 0 ≤ v)
    (hf : ∀ i j : ℤ, InDom 256 i j →
      flameForcing P a mx my (texel 256 i) (texel 256 j) = 0)
    (n : ℕ) (hn : v ≤ n * P.coolSub) (i j : ℤ) (hij : InDom 256 i j) :
    flameRun P a mx my mz n (flameSingle i0 j0 v) i j = 0 := by
  have hv' : (0 : ℝ) ≤ (v : ℚ) := by exact_mod_cast hv
  have hsingle : ∀ i' j' : ℤ, InDom 256 i' j' →
      flameSingle i0 j0 v i' j' ≤ ((v : ℚ) : ℝ) := by
    intro i' j' _
    unfold flameSingle
    split
    · exact le_refl _
    · exact hv'
  have hup := flameRun_le P hm0 hm1 hc0 hc1 hs0 a mx my mz hf n
    (flameSingle i0 j0 v) ((v : ℚ) : ℝ) hv' hsingle i j hij
  have hzero : max 0 (((v : ℚ) : ℝ) - n * (P.coolSub : ℝ)) = 0 := by
    rw [max_eq_left]
    have : ((v : ℚ) : ℝ) ≤ (n : ℝ) * ((P.coolSub : ℚ) : ℝ) := by
      exact_mod_cast hn
    linarith
  rw [hzero] at hup
  have hlow : 0 ≤ flameRun P a mx my mz n (flameSingle i0 j0 v) i j := by
    apply flameRun_nonneg
    intro i' j'
    unfold flameSingle
    split
    · exact hv'
    · exact le_refl 0
  linarith

/-- The pointer position (1/2, -1) is below the field: every texel of the
256-texel domain is at distance at least one from it, far outside both
brush radii, so no texel receives forcing. -/
theorem flameForcingFree_below : ∀ i j : ℤ, InDom 256 i j →
    flameForcing flamePresetSlow 1 (1/2) (-1) (texel 256 i) (texel 256 j) = 0 := by
  intro i j hij
  obtain ⟨_, _, hj0, _⟩ := hij
  have hv0 : 0 ≤ texel 256 j := by
    unfold texel
    have : (0 : ℚ) ≤ (j : ℚ) := by exact_mod_cast hj0
    positivity
  have hlsq : 1 ≤ flameLenSq 1 (1/2) (-1) (texel 256 i) (texel 256 j) := by
    unfold flameLenSq
    nlinarith [sq_nonneg (1 * (texel 256 i - 1/2))]
  have hlen : (1 : ℝ) ≤ flameLen 1 (1/2) (-1) (texel 256 i) (texel 256 j) := by
    unfold flameLen
    rw [show (1 : ℝ) = Real.sqrt 1 from Real.sqrt_one.symm]
    apply Real.sqrt_le_sqrt
    exact_mod_cast hlsq
  unfold flameForcing
  rw [if_neg]
  rw [not_lt]
  calc ((flamePresetSlow.radius : ℚ) : ℝ) ≤ 1 := by norm_num [flamePresetSlow]
    _ ≤ _ := hlen

/-- Witness for C2 at a concrete input: one unit of heat in the corner texel
of the slow flame preset is gone after 1000 frames. -/
theorem c2_flame_decay_to_zero_witness :
    flameRun flamePresetSlow 1 (1/2) (-1) 0 1000 (flameSingle 0 0 1) 0 0 = 0 :=
  c2_flame_decay_to_zero flamePresetSlow
    (by norm_num [flamePresetSlow]) (by norm_num [flamePresetSlow])
    (by norm_num [flamePresetSlow]) (by norm_num [flamePresetSlow])
    (by norm_num [flamePresetSlow]) 1 (1/2) (-1) 0 0 0 1 (by norm_num)
    flameForcingFree_below 1000 (by norm_num [flamePresetSlow]) 0 0
    (by decide)

/-- With a zero pointer delta the smoke field only scales: after n frames a
cell's red channel is 0.97 to the n times its initial value, whatever the
frame times. -/
theorem smokeRun_zeroDelta (mx my : ℚ) :
    ∀ (n : ℕ) (ts : ℕ → ℚ) (g : ℤ → ℤ → Vec4R) (i j : ℤ),
      (smokeRun mx my 0 0 ts n g i j).r = (0.97 : ℝ) ^ n * (g i j).r := by
  intro n
  induction n with
  | zero =>
    intro ts g i j
    rw [pow_zero, one_mul]
    rfl
  | succ n ih =>
    intro ts g i j
    have hzero : (9/10 : ℚ) * 0 = 0 := mul_zero _
    calc (smokeRun mx my 0 0 ts (n + 1) g i j).r
        = (smokeRun mx my (9/10 * 0) (9/10 * 0) (fun k => ts (k + 1)) n
            (smokeGridStep g mx my 0 0 (ts 0)) i j).r := rfl
      _ = (smokeRun mx my 0 0 (fun k => ts (k + 1)) n
            (smokeGridStep g mx my 0 0 (ts 0)) i j).r := by rw [hzero]
      _ = (0.97 : ℝ) ^ n * (smokeGridStep g mx my 0 0 (ts 0) i j).r := by
          rw [ih]
      _ = (0.97 : ℝ) ^ n * (0.97 * (g i j).r) := by
          rw [smokeGridStep_zeroDelta_r]
      _ = (0.97 : ℝ) ^ (n + 1) * (g i j).r := by ring

/-- Claim C2, counterexample: the smoke update never reaches exact zero.
Starting from a buffer whose only non-zero cell holds one, with the pointer
delta (hence the whole forcing contribution) held at zero, there is no
number of frames after which the cell is zero: its red channel is 0.97 to
the n, which is positive for every n. -/
theorem c2_counterexample_smoke_never_zero :
    ¬ ∃ N : ℕ,
      (smokeRun 0 0 0 0 (fun k => (k : ℚ)) N (smokeSingle 0 0 1) 0 0).r = 0 := by
  rintro ⟨N, hN⟩
  rw [smokeRun_zeroDelta] at hN
  have hone : (smokeSingle 0 0 1 0 0).r = 1 := by
    unfold smokeSingle
    norm_num
  rw [hone, mul_one] at hN
  exact pow_ne_zero N (by norm_num) hN
